import Mathlib

/-!
Shallow embedding of the dialogue/booking engine of `src/backend/agent.py`
(the deterministic rule-based controller), together with proofs about it.

Modelling conventions:
* A Python `datetime` is modelled by `DateTime` below: `day` counts days from
  a fixed epoch that falls on a Monday (so `weekday = day % 7` matches
  Python `datetime.weekday()`, Monday = 0), plus an hour and a minute.
  Sub-minute fields are dropped: no operation of the engine observes them.
* `isoformat` / `fromisoformat` round-trip, so dates stored in the session
  state as ISO strings are modelled by the `DateTime` value itself.
* A `"HH:MM"` time label is modelled by `TimeLabel` (hour as an integer,
  minute as a natural number); Python string equality of labels coincides
  with `TimeLabel` equality for every label the engine can build, because
  the `f-string` rendering is injective on them.
* The ambient clock `datetime.now()` is threaded as an explicit `now`
  argument; the `dateutil` fuzzy date parser (an external library, applied
  to the stop-word-stripped text, with exceptions mapped to `None`) is a
  function parameter `fuzzy`.
* A Python exception escaping `process_user_message` is modelled by the
  step function returning `none`.
* Character classes (`\d`, `\s`, `lower`) are modelled over ASCII, which
  covers every input the repository and its tests exercise.
-/

namespace CalendarAgent

/-- A `"HH:MM"` time label (hour may exceed 23 in raw user input). -/
structure TimeLabel where
  hour : Int
  minute : Nat
deriving DecidableEq, Repr

/-- Python `datetime`, reduced to the fields the engine observes.
`day` is the number of days since an epoch Monday. -/
structure DateTime where
  day : Nat
  hour : Nat
  minute : Nat
deriving DecidableEq, Repr

/-- Python `today + timedelta(days = k)`. -/
def addDays (d : DateTime) (k : Nat) : DateTime := { d with day := d.day + k }

/-- Python `datetime.weekday()`: Monday = 0 … Sunday = 6. -/
def DateTime.weekday (d : DateTime) : Nat := d.day % 7

/-- Python `date.replace(hour=h, minute=0)`: `ValueError` (modelled as
`none`) unless `0 ≤ h ≤ 23`. -/
def replaceHM (d : DateTime) (h : Int) : Option DateTime :=
  if 0 ≤ h ∧ h ≤ 23 then some { d with hour := h.toNat, minute := 0 } else none

/-- Python `date.replace(hour=int(hh), minute=int(mm))` for a parsed label. -/
def replaceLabel (d : DateTime) (t : TimeLabel) : Option DateTime :=
  if 0 ≤ t.hour ∧ t.hour ≤ 23 ∧ t.minute ≤ 59 then
    some { d with hour := t.hour.toNat, minute := t.minute }
  else none

/-- The `pending_booking` dict: `duration` and `title` are optional because
one branch of the source stores only `date` and `time`. -/
structure Booking where
  date : DateTime
  time : TimeLabel
  duration : Option Nat
  title : Option String
deriving DecidableEq, Repr

/-- A committed calendar event (an element of `calendar_events`). -/
structure Event where
  date : DateTime
  time : TimeLabel
  duration : Nat
  title : String
deriving DecidableEq, Repr

/-- The session-state dict, as the closed set of keys the engine uses.
An absent key is `false` / `none`. -/
structure SessionState where
  booking_flow : Bool := false
  checking_availability : Bool := false
  waiting_for_date : Bool := false
  waiting_for_time : Bool := false
  selected_date : Option DateTime := none
  availability_date : Option DateTime := none
  available_slots : Option (List TimeLabel) := none
  pending_confirmation : Bool := false
  pending_booking : Option Booking := none
deriving DecidableEq, Repr

/-- The empty dict `{}`. -/
def emptyState : SessionState := {}

/-- Python truthiness of `session_state.get("availability_date")` /
`get("selected_date")` (an ISO string: truthy iff present). -/
def truthyDate (o : Option DateTime) : Bool := o.isSome

/-- Python truthiness of `session_state.get("available_slots")`:
an empty list is falsy. -/
def truthySlots (o : Option (List TimeLabel)) : Bool :=
  match o with
  | some l => !l.isEmpty
  | none => false

/-! ## String utilities (ASCII models of the Python primitives) -/

/-- Python `\s` over ASCII. -/
def isSpaceCh (c : Char) : Bool :=
  c == ' ' || c == '\t' || c == '\n' || c == '\r' || c == '\x0b' || c == '\x0c'

/-- Python `str.strip()`. -/
def stripCL (cs : List Char) : List Char :=
  ((cs.dropWhile isSpaceCh).reverse.dropWhile isSpaceCh).reverse

/-- Python `str.lower()` then `str.strip()` over the character list. -/
def lowerStrip (s : String) : List Char :=
  stripCL (s.data.map Char.toLower)

/-- Is `nd` a prefix of `hay`? -/
def isPrefCL : List Char → List Char → Bool
  | [], _ => true
  | _ :: _, [] => false
  | a :: as, b :: bs => a == b && isPrefCL as bs

/-- Python `nd in hay` (substring containment). -/
def containsSub (hay nd : List Char) : Bool :=
  match hay with
  | [] => nd.isEmpty
  | _ :: t => isPrefCL nd hay || containsSub t nd

/-- Python `any(word in text for word in words)`. -/
def containsAny (hay : List Char) (words : List String) : Bool :=
  words.any (fun w => containsSub hay w.data)

/-- The regex `^\d{1,2}$` applied to the already-stripped text. -/
def isDigits12 (cs : List Char) : Bool :=
  (cs.length == 1 || cs.length == 2) && cs.all Char.isDigit

/-- Numeric value of a digit list. -/
def digitsVal (cs : List Char) : Nat :=
  cs.foldl (fun a c => a * 10 + (c.toNat - 48)) 0

/-- Python `int(s)`: optional sign and a nonempty digit run after stripping
(`none` models the `ValueError`; numeric-separator underscores are not
modelled, as no caller of the engine can produce them). -/
def intParse (s : String) : Option Int :=
  let cs := stripCL s.data
  match cs with
  | '-' :: rest =>
    if !rest.isEmpty && rest.all Char.isDigit then some (-(digitsVal rest : Int)) else none
  | '+' :: rest =>
    if !rest.isEmpty && rest.all Char.isDigit then some (digitsVal rest : Int) else none
  | rest =>
    if !rest.isEmpty && rest.all Char.isDigit then some (digitsVal rest : Int) else none

/-- Python `s.replace(nd, "")` for a two-character needle `nd = [a, b]`
(left-to-right, non-overlapping). -/
def removeSub2 (a b : Char) : List Char → List Char
  | [] => []
  | [c] => [c]
  | c :: d :: t =>
    if c == a && d == b then removeSub2 a b t else c :: removeSub2 a b (d :: t)

/-- Python `s.split(sep)` for a single-character separator. -/
def splitOnCh (sep : Char) (cs : List Char) : List (List Char) :=
  match cs with
  | [] => [[]]
  | c :: t =>
    let rest := splitOnCh sep t
    if c == sep then [] :: rest
    else
      match rest with
      | [] => [[c]]
      | p :: ps => (c :: p) :: ps

/-! ## Models of the `re` searches used by `extract_date_time` and the
`between H-H` range detection.

These functions reproduce, for the three time patterns and the range
pattern of the source, the semantics of `re.search`: the scan is by start
position from the left, and at a given position the quantifier
alternatives are tried in standard backtracking priority order (greedy
`\d{1,2}` tries two digits before one; an optional group tries presence
before absence). -/

/-- Match `(am|pm)` at the head: `some false` = `am`, `some true` = `pm`,
`none` = no match (also serves the optional group `(am|pm)?`). -/
def matchAmPm : List Char → Option Bool
  | 'a' :: 'm' :: _ => some false
  | 'p' :: 'm' :: _ => some true
  | _ => none

/-- Continuation of pattern `(\d{1,2}):(\d{2})\s*(am|pm)?` after the hour
digits: the captured groups are `(hour value, minute value, am/pm)`. -/
def pat1After (h : Nat) : List Char → Option (Nat × Nat × Option Bool)
  | ':' :: c1 :: c2 :: rest =>
    if c1.isDigit && c2.isDigit then
      some (h, (c1.toNat - 48) * 10 + (c2.toNat - 48), matchAmPm (rest.dropWhile isSpaceCh))
    else none
  | _ => none

/-- Try pattern `(\d{1,2}):(\d{2})\s*(am|pm)?` anchored at this position. -/
def pat1At : List Char → Option (Nat × Nat × Option Bool)
  | c1 :: c2 :: rest =>
    if c1.isDigit then
      if c2.isDigit then
        match pat1After ((c1.toNat - 48) * 10 + (c2.toNat - 48)) rest with
        | some r => some r
        | none => pat1After (c1.toNat - 48) (c2 :: rest)
      else pat1After (c1.toNat - 48) (c2 :: rest)
    else none
  | _ => none

/-- Model of `re.search` for pattern `(\d{1,2}):(\d{2})\s*(am|pm)?`. -/
def searchPat1 : List Char → Option (Nat × Nat × Option Bool)
  | [] => none
  | c :: t =>
    match pat1At (c :: t) with
    | some r => some r
    | none => searchPat1 t

/-- Try pattern `(\d{1,2})\s*(am|pm)` anchored at this position (the am/pm
group is mandatory here). -/
def pat2At : List Char → Option (Nat × Bool)
  | [] => none
  | c1 :: rest =>
    if c1.isDigit then
      match rest with
      | c2 :: rest2 =>
        if c2.isDigit then
          match matchAmPm (rest2.dropWhile isSpaceCh) with
          | some ap => some ((c1.toNat - 48) * 10 + (c2.toNat - 48), ap)
          | none =>
            match matchAmPm ((c2 :: rest2).dropWhile isSpaceCh) with
            | some ap => some (c1.toNat - 48, ap)
            | none => none
        else
          match matchAmPm ((c2 :: rest2).dropWhile isSpaceCh) with
          | some ap => some (c1.toNat - 48, ap)
          | none => none
      | [] => none
    else none

/-- Model of `re.search` for pattern `(\d{1,2})\s*(am|pm)`. -/
def searchPat2 : List Char → Option (Nat × Bool)
  | [] => none
  | c :: t =>
    match pat2At (c :: t) with
    | some r => some r
    | none => searchPat2 t

/-- All ways the group `\d{1,2}(?::\d{2})?\s*(?:am|pm)?` can match a prefix
of `cs`, as `(captured text, remaining text)` pairs in backtracking
priority order. -/
def gCandidates (cs : List Char) : List (List Char × List Char) :=
  let digitOpts : List (List Char × List Char) :=
    match cs with
    | c1 :: c2 :: r =>
      if c1.isDigit && c2.isDigit then [([c1, c2], r), ([c1], c2 :: r)]
      else if c1.isDigit then [([c1], c2 :: r)] else []
    | [c1] => if c1.isDigit then [([c1], [])] else []
    | [] => []
  digitOpts.flatMap (fun p =>
    let colonOpts : List (List Char × List Char) :=
      match p.2 with
      | ':' :: m1 :: m2 :: r2 =>
        if m1.isDigit && m2.isDigit then
          [(p.1 ++ [':', m1, m2], r2), (p.1, p.2)]
        else [(p.1, p.2)]
      | _ => [(p.1, p.2)]
    colonOpts.flatMap (fun q =>
      let sp := q.2.takeWhile isSpaceCh
      let r3 := q.2.dropWhile isSpaceCh
      let cap := q.1 ++ sp
      match r3 with
      | 'a' :: 'm' :: r4 => [(cap ++ ['a', 'm'], r4), (cap, r3)]
      | 'p' :: 'm' :: r4 => [(cap ++ ['p', 'm'], r4), (cap, r3)]
      | _ => [(cap, r3)]))

/-- First alternative on which the continuation succeeds. -/
def firstSome : List α → (α → Option β) → Option β
  | [], _ => none
  | a :: t, f =>
    match f a with
    | some b => some b
    | none => firstSome t f

/-- Continuation of the range pattern after the literal `between`:
`\s+ G \s* - \s* G`, returning the two captured groups. -/
def afterBetween (cs : List Char) : Option (List Char × List Char) :=
  if (cs.takeWhile isSpaceCh).isEmpty then none
  else
    firstSome (gCandidates (cs.dropWhile isSpaceCh)) (fun p =>
      match p.2.dropWhile isSpaceCh with
      | '-' :: r3 =>
        match gCandidates (r3.dropWhile isSpaceCh) with
        | [] => none
        | q :: _ => some (p.1, q.1)
      | _ => none)

/-- Model of `re.search` for
`between\s+(\d{1,2}(?::\d{2})?\s*(?:am|pm)?)\s*-\s*(\d{1,2}(?::\d{2})?\s*(?:am|pm)?)`. -/
def searchBetween : List Char → Option (List Char × List Char)
  | [] => none
  | c :: t =>
    if isPrefCL ['b', 'e', 't', 'w', 'e', 'e', 'n'] (c :: t) then
      match afterBetween (t.drop 6) with
      | some r => some r
      | none => searchBetween t
    else searchBetween t

/-! ## The four engine functions of `agent.py` -/

/-- Model of `parse_time_to_hour(time_str)` (agent.py 199-236): parse a captured
time string to an hour for comparison; `none` models the `ValueError`
raised by `int()` or by unpacking a `split(':')` that does not yield
exactly two parts. -/
def parse_time_to_hour (cs0 : List Char) : Option Int :=
  let cs := (stripCL cs0).map Char.toLower
  if containsSub cs ['p', 'm'] then
    let t := stripCL (removeSub2 'p' 'm' cs)
    if containsSub t [':'] then
      match splitOnCh ':' t with
      | [h, _] => (intParse ⟨h⟩).map (fun hv => if hv ≠ 12 then hv + 12 else hv)
      | _ => none
    else (intParse ⟨t⟩).map (fun hv => if hv ≠ 12 then hv + 12 else hv)
  else if containsSub cs ['a', 'm'] then
    let t := stripCL (removeSub2 'a' 'm' cs)
    if containsSub t [':'] then
      match splitOnCh ':' t with
      | [h, _] => (intParse ⟨h⟩).map (fun hv => if hv == 12 then 0 else hv)
      | _ => none
    else (intParse ⟨t⟩).map (fun hv => if hv == 12 then 0 else hv)
  else
    if containsSub cs [':'] then
      match splitOnCh ':' cs with
      | [h, _] => intParse ⟨h⟩
      | _ => none
    else intParse ⟨cs⟩

/-- Hour/minute conversion for the `H:MM (am|pm)?` pattern
(agent.py 146-153). -/
def timeFromPat1 (h m : Nat) (ap : Option Bool) : TimeLabel :=
  let hour : Int :=
    if ap == some true && h ≠ 12 then (h : Int) + 12
    else if ap == some false && h == 12 then 0
    else (h : Int)
  ⟨hour, m⟩

/-- Hour conversion for the `H (am|pm)` pattern (agent.py 154-161). -/
def timeFromPat2 (h : Nat) (pm : Bool) : TimeLabel :=
  let hour : Int :=
    if pm && h ≠ 12 then (h : Int) + 12
    else if !pm && h == 12 then 0
    else (h : Int)
  ⟨hour, 0⟩

/-- Hour heuristic for a bare 1-2 digit text (agent.py 162-171):
before 6 is read as PM, otherwise the number is kept. -/
def timeFromPat3 (h : Nat) : TimeLabel :=
  if h < 6 then ⟨(h : Int) + 12, 0⟩ else ⟨(h : Int), 0⟩

/-- The ordered time-pattern loop of `extract_date_time`
(agent.py 136-172): first matching pattern wins. -/
def searchTimePatterns (tl : List Char) : Option TimeLabel :=
  match searchPat1 tl with
  | some (h, m, ap) => some (timeFromPat1 h m ap)
  | none =>
    match searchPat2 tl with
    | some (h, ap) => some (timeFromPat2 h ap)
    | none => if isDigits12 tl then some (timeFromPat3 (digitsVal tl)) else none

/-- The day-name table of agent.py 91-99, in insertion order. -/
def dayPatterns : List (List Char × Nat) :=
  [("monday".data, 0), ("mon".data, 0), ("tuesday".data, 1), ("tue".data, 1),
   ("tues".data, 1), ("wednesday".data, 2), ("wed".data, 2), ("thursday".data, 3),
   ("thu".data, 3), ("thurs".data, 3), ("friday".data, 4), ("fri".data, 4),
   ("saturday".data, 5), ("sat".data, 5), ("sunday".data, 6), ("sun".data, 6)]

/-- First day name contained in the text (the `for day_name, day_num`
loop with `break`). -/
def findDay (tl : List Char) : Option Nat :=
  (dayPatterns.find? (fun p => containsSub tl p.1)).map (·.2)

/-- Computes `days_ahead = day_num - today.weekday(); if days_ahead <= 0: += 7`
(agent.py 106-108, identical at 113-115 and 120-122). -/
def dayAhead (dayNum wd : Nat) : Nat :=
  if wd < dayNum then dayNum - wd else dayNum + 7 - wd

/-- The `next week` resolution (agent.py 80-86): the next Monday, or now+7
days when today is Monday. -/
def nextWeekDate (now : DateTime) : DateTime :=
  let daysUntilMonday := (7 - now.weekday) % 7
  if daysUntilMonday == 0 then addDays now 7 else addDays now daysUntilMonday

/-- Model of `extract_date_time(text)` (agent.py 69-182). The `fuzzy` parameter
models `date_parser.parse(clean_text, fuzzy=True, default=today)` applied
to the stop-word-stripped lowered text, with a parse exception mapped to
`none` (the `try/except` at agent.py 128-133). -/
def extract_date_time (fuzzy : List Char → Option DateTime) (now : DateTime)
    (text : String) : Option DateTime × Option TimeLabel :=
  let tl := lowerStrip text
  let date : Option DateTime :=
    if containsSub tl "tomorrow".data then some (addDays now 1)
    else if containsSub tl "today".data then some now
    else if containsSub tl "next week".data then some (nextWeekDate now)
    else if containsSub tl "this week".data then some (addDays now 1)
    else
      match findDay tl with
      | some dayNum =>
        if containsSub tl "this".data then some (addDays now (dayAhead dayNum now.weekday))
        else if containsSub tl "next".data then
          some (addDays now (dayAhead dayNum now.weekday + 7))
        else some (addDays now (dayAhead dayNum now.weekday))
      | none => fuzzy tl
  let patternTime := searchTimePatterns tl
  let time_str : Option TimeLabel :=
    if containsSub tl "morning".data then some ⟨9, 0⟩
    else if containsSub tl "afternoon".data then some ⟨14, 0⟩
    else if containsSub tl "evening".data then some ⟨17, 0⟩
    else patternTime
  (date, time_str)

/-- Model of `extract_intent(text, session_state)` (agent.py 9-67). The result is a
`String` exactly as in the source, so that the (unreachable) comparison
with `"check_availability"` in the controller can be stated faithfully. -/
def extract_intent (fuzzy : List Char → Option DateTime) (now : DateTime)
    (text : String) (s : SessionState) : String :=
  let tl := lowerStrip text
  if s.waiting_for_time && isDigits12 tl then "select_time"
  else if truthyDate s.availability_date && truthySlots s.available_slots
      && isDigits12 tl then "select_time"
  else if s.waiting_for_time && truthySlots s.available_slots && isDigits12 tl then
    "select_time"
  else if s.booking_flow &&
      (let dt := extract_date_time fuzzy now text; dt.1.isSome || dt.2.isSome) then "book"
  else if s.checking_availability && (extract_date_time fuzzy now text).1.isSome then
    "check"
  else if containsAny tl ["book", "schedule", "meeting", "call", "appointment", "reserve"]
    then "book"
  else if containsAny tl ["free", "available", "availability", "slots", "open",
      "have time", "free time", "check availability"] then "check"
  else if containsAny tl ["cancel", "remove", "delete", "unbook"] then "cancel"
  else if containsAny tl ["hi", "hello", "hey", "greetings"] then "greeting"
  else if containsAny tl ["yes", "yeah", "sure", "ok", "okay", "confirm"] then "confirm"
  else if containsAny tl ["no", "nope", "not", "cancel"] then "reject"
  else "unknown"

/-- Model of `get_free_slots(date)` (agent.py 184-197), with the module-global
`calendar_events` passed explicitly as `store`. -/
def get_free_slots (store : List Event) (date : DateTime) : List TimeLabel :=
  let slots : List TimeLabel := (List.range' 9 9).map (fun h => ⟨(h : Int), 0⟩)
  let booked : List TimeLabel :=
    (store.filter (fun e => e.date.day == date.day)).map (·.time)
  slots.filter (fun s => !(booked.contains s))

/-- The shape of the string built by `suggest_time_slots` (agent.py
238-246); the model keeps the slot payload rather than the prose. -/
inductive SuggestMsg where
  | noSlots
  | few (slots : List TimeLabel)
  | many (firstThree : List TimeLabel)
deriving DecidableEq, Repr

/-- Model of `suggest_time_slots(free_slots)` (agent.py 238-246). -/
def suggest_time_slots (fs : List TimeLabel) : SuggestMsg :=
  if fs.isEmpty then .noSlots
  else if fs.length ≤ 3 then .few fs
  else .many (fs.take 3)

/-- The response returned by `process_user_message`, one constructor per
`return` site of agent.py, carrying the data interpolated into the
corresponding f-string. Sites whose rendered prose happens to coincide
(for example the four `no free slots on date` apologies) keep separate
constructors tagged by source line. -/
inductive Response where
  | confirmedPending (date : DateTime)                                      -- line 275
  | noPendingBooking                                                        -- line 281
  | didNotUnderstandHour13                                                  -- line 297
  | selectedConfirmA (time : TimeLabel) (date : DateTime)                   -- line 309
  | checkAvailSlots (date : DateTime) (slots : List TimeLabel)              -- line 320
  | noFreeSlotsCA (date : DateTime)                                         -- line 325
  | whatDateCA                                                              -- line 331
  | greetingMsg                                                             -- line 339
  | selectedConfirmB (time : TimeLabel) (date : DateTime)                   -- line 359
  | notAvailableSlotA (time : TimeLabel)                                    -- line 364
  | selectedConfirmC (time : TimeLabel) (date : DateTime)                   -- line 397
  | notAvailableSlotB (time : TimeLabel) (slots : List TimeLabel)           -- line 402
  | didNotUnderstandHour15                                                  -- line 407
  | helpMenuA                                                               -- line 413
  | bookedConfirm (date : DateTime) (time : TimeLabel)                      -- line 432
  | bookingCancelled                                                        -- line 440
  | whatDateCheck                                                           -- line 449
  | freeSlotsCheck (date : DateTime) (slots : List TimeLabel)               -- line 458
  | noFreeSlotsOnA (date : DateTime)                                        -- line 463
  | whenToMeet                                                              -- line 473
  | rangeSlots (date : DateTime) (startStr endStr : List Char)
      (slots : List TimeLabel)                                              -- line 503
  | noSlotsInRange (startStr endStr : List Char) (date : DateTime)          -- line 508
  | bookedDirectA (date : DateTime) (time : TimeLabel)                      -- line 523
  | timeNotAvailA (time : TimeLabel) (date : DateTime) (sugg : SuggestMsg)  -- line 529
  | availabilitySuggestA (date : DateTime) (sugg : SuggestMsg)              -- line 537
  | noFreeSlotsOnB (date : DateTime)                                        -- line 543
  | freeSlotsCheckNP (date : DateTime) (slots : List TimeLabel)             -- line 555
  | noFreeSlotsOnC (date : DateTime)                                        -- line 560
  | stillWaitingWhenA                                                       -- line 568
  | bookedDirectB (date : DateTime) (time : TimeLabel)                      -- line 584
  | timeNotAvailB (time : TimeLabel) (date : DateTime) (sugg : SuggestMsg)  -- line 590
  | availabilitySuggestB (date : DateTime) (sugg : SuggestMsg)              -- line 598
  | noFreeSlotsOnD (date : DateTime)                                        -- line 604
  | stillWaitingWhenB                                                       -- line 609
  | stillWaitingTime                                                        -- line 614
  | stillWaitingDate                                                        -- line 619
  | helpMenuB                                                               -- line 624
deriving DecidableEq, Repr

/-- The result of one turn: `some (response, new state, new store)`, or
`none` when a Python exception escapes. -/
abbrev TurnResult := Option (Response × SessionState × List Event)

/-- agent.py 258-283: confirmation of a pending booking. -/
def confirm_pending (s : SessionState) (store : List Event) : TurnResult :=
  match s.pending_booking with
  | some booking =>
    some (.confirmedPending booking.date, emptyState,
      store ++ [⟨booking.date, booking.time, booking.duration.getD 60,
                 booking.title.getD "Meeting"⟩])
  | none => some (.noPendingBooking, emptyState, store)

/-- agent.py 285-311: time selection right after an availability check. -/
def select_after_check (text : String) (s : SessionState) (store : List Event) :
    TurnResult :=
  let selected_date := s.availability_date.getD ⟨0, 0, 0⟩
  match intParse text with
  | none => some (.didNotUnderstandHour13, emptyState, store)
  | some hour =>
    let selected_time : TimeLabel := ⟨hour, 0⟩
    match replaceHM selected_date hour with
    | none => none  -- the replace at line 303 is outside the try: ValueError escapes
    | some bdate =>
      some (.selectedConfirmA selected_time selected_date,
        { s with pending_confirmation := true,
                 pending_booking := some ⟨bdate, selected_time, some 60, some "Meeting"⟩ },
        store)

/-- agent.py 313-333: the branch guarded by `intent == "check_availability"`
(never taken, since `extract_intent` cannot produce that string). -/
def check_availability_branch (date : Option DateTime) (s : SessionState)
    (store : List Event) : TurnResult :=
  match date with
  | some d =>
    let free_slots := get_free_slots store d
    if !free_slots.isEmpty then
      some (.checkAvailSlots d free_slots,
        { emptyState with availability_date := some d }, store)
    else some (.noFreeSlotsCA d, emptyState, store)
  | none => some (.whatDateCA, { s with checking_availability := true }, store)

/-- agent.py 370-415: the `waiting_for_time` sub-branch of time selection
and the help-menu fallback; also the landing point of the `except: pass`
fallthrough at line 367-368. -/
def select_time_fallback (now : DateTime) (text : String) (s : SessionState)
    (store : List Event) : TurnResult :=
  if s.waiting_for_time && truthySlots s.available_slots then
    match intParse text with
    | none => some (.didNotUnderstandHour15, s, store)
    | some hour =>
      let selected_time : TimeLabel := ⟨hour, 0⟩
      if (s.available_slots.getD []).contains selected_time then
        let selected_date :=
          match s.selected_date with
          | some d => d
          | none =>
            match s.availability_date with
            | some d => d
            | none => now
        -- pending_confirmation is set at line 389, before the dict holding
        -- the fallible replace at 391 is built, so the except at 405
        -- returns with the flag already set and no pending_booking
        let s1 := { s with pending_confirmation := true }
        match replaceHM selected_date hour with
        | none => some (.didNotUnderstandHour15, s1, store)
        | some bdate =>
          some (.selectedConfirmC selected_time selected_date,
            { s1 with
                pending_booking := some ⟨bdate, selected_time, some 60, some "Meeting"⟩ },
            store)
      else
        some (.notAvailableSlotB selected_time (s.available_slots.getD []), s, store)
  else some (.helpMenuA, emptyState, store)

/-- agent.py 344-415: the `select_time` intent block. -/
def select_time_branch (now : DateTime) (text : String) (s : SessionState)
    (store : List Event) : TurnResult :=
  if truthyDate s.availability_date && truthySlots s.available_slots then
    match intParse text with
    | some hour =>
      let selected_time : TimeLabel := ⟨hour, 0⟩
      if (s.available_slots.getD []).contains selected_time then
        let selected_date := s.availability_date.getD ⟨0, 0, 0⟩
        some (.selectedConfirmB selected_time selected_date,
          { s with pending_confirmation := true,
                   pending_booking := some ⟨selected_date, selected_time, none, none⟩ },
          store)
      else some (.notAvailableSlotA selected_time, s, store)
    | none => select_time_fallback now text s store
  else select_time_fallback now text s store

/-- agent.py 418-434: explicit confirm with a pending booking (subsumed by
the branch at 258, embedded faithfully). -/
def confirm_explicit (s : SessionState) (store : List Event) : TurnResult :=
  let booking := s.pending_booking.getD ⟨⟨0, 0, 0⟩, ⟨0, 0⟩, none, none⟩
  some (.bookedConfirm booking.date booking.time, emptyState,
    store ++ [⟨booking.date, booking.time, booking.duration.getD 60,
               booking.title.getD "Meeting"⟩])

/-- agent.py 445-465: the `check` intent block. -/
def check_branch (date : Option DateTime) (s : SessionState) (store : List Event) :
    TurnResult :=
  match date with
  | none => some (.whatDateCheck, { s with checking_availability := true }, store)
  | some d =>
    let free_slots := get_free_slots store d
    if !free_slots.isEmpty then
      some (.freeSlotsCheck d free_slots,
        { emptyState with availability_date := some d, available_slots := some free_slots },
        store)
    else some (.noFreeSlotsOnA d, emptyState, store)

/-- agent.py 512-545: the tail of the `book` branch once the range pattern
did not match. -/
def book_time_flow (d : DateTime) (free_slots : List TimeLabel) (s2 : SessionState)
    (time_str : Option TimeLabel) (store : List Event) : TurnResult :=
  match time_str with
  | some t =>
    if free_slots.contains t then
      match replaceLabel d t with
      | none => none
      | some bdate =>
        some (.bookedDirectA d t, emptyState, store ++ [⟨bdate, t, 60, "Meeting"⟩])
    else
      some (.timeNotAvailA t d (suggest_time_slots free_slots),
        { s2 with waiting_for_time := true }, store)
  | none =>
    if !free_slots.isEmpty then
      some (.availabilitySuggestA d (suggest_time_slots free_slots),
        { s2 with waiting_for_time := true, available_slots := some free_slots },
        store)
    else some (.noFreeSlotsOnB d, { s2 with waiting_for_date := true }, store)

/-- agent.py 468-545: the `book` intent block. -/
def book_branch (text : String) (date : Option DateTime) (time_str : Option TimeLabel)
    (s : SessionState) (store : List Event) : TurnResult :=
  let sB := { s with booking_flow := true }
  match date with
  | none => some (.whenToMeet, { sB with waiting_for_date := true }, store)
  | some d =>
    let free_slots := get_free_slots store d
    let s2 := { sB with selected_date := some d }
    match searchBetween (text.data.map Char.toLower) with
    | some (g1, g2) =>
      match parse_time_to_hour g1, parse_time_to_hour g2 with
      | some start_hour, some end_hour =>
        -- the `is not None` guard at line 491 is vacuous: parse_time_to_hour
        -- either returns an int or raises
        let available_in_range :=
          free_slots.filter (fun slot => start_hour ≤ slot.hour && slot.hour ≤ end_hour)
        if !available_in_range.isEmpty then
          some (.rangeSlots d g1 g2 available_in_range,
            { s2 with waiting_for_time := true,
                      available_slots := some available_in_range },
            store)
        else some (.noSlotsInRange g1 g2 d, s2, store)
      | _, _ => none  -- int() raised inside parse_time_to_hour (impossible for captures)
    | none => book_time_flow d free_slots s2 time_str store

/-- agent.py 573-606: the booking-flow sub-branch of the final else (a
near-copy of 512-545 with its own response sites). -/
def fallback_book_flow (d : DateTime) (free_slots : List TimeLabel) (s2 : SessionState)
    (time_str : Option TimeLabel) (store : List Event) : TurnResult :=
  match time_str with
  | some t =>
    if free_slots.contains t then
      match replaceLabel d t with
      | none => none
      | some bdate =>
        some (.bookedDirectB d t, emptyState, store ++ [⟨bdate, t, 60, "Meeting"⟩])
    else
      some (.timeNotAvailB t d (suggest_time_slots free_slots),
        { s2 with waiting_for_time := true }, store)
  | none =>
    if !free_slots.isEmpty then
      some (.availabilitySuggestB d (suggest_time_slots free_slots),
        { s2 with waiting_for_time := true, available_slots := some free_slots },
        store)
    else some (.noFreeSlotsOnD d, { s2 with waiting_for_date := true }, store)

/-- agent.py 548-626: the final else of the controller. -/
def fallback_branch (date : Option DateTime) (time_str : Option TimeLabel)
    (s : SessionState) (store : List Event) : TurnResult :=
  if s.checking_availability && date.isSome then
    let d := date.getD ⟨0, 0, 0⟩
    let free_slots := get_free_slots store d
    if !free_slots.isEmpty then some (.freeSlotsCheckNP d free_slots, emptyState, store)
    else some (.noFreeSlotsOnC d, emptyState, store)
  else if s.booking_flow && (date.isSome || time_str.isSome) then
    match date with
    | none => some (.stillWaitingWhenA, { s with waiting_for_date := true }, store)
    | some d =>
      let free_slots := get_free_slots store d
      let s2 := { s with selected_date := some d }
      fallback_book_flow d free_slots s2 time_str store
  else if s.waiting_for_date then some (.stillWaitingWhenB, s, store)
  else if s.waiting_for_time then some (.stillWaitingTime, s, store)
  else if s.checking_availability then some (.stillWaitingDate, s, store)
  else some (.helpMenuB, s, store)

/-- Model of `process_user_message(text, session_state)` (agent.py 248-626), with the
module-global `calendar_events` threaded as `store` and the ambient clock
and `dateutil` parser as explicit parameters. The branch bodies live in
the helper definitions above, each tagged with its source lines; this
dispatcher mirrors the sequence of early-returning `if` blocks. The result
is `some (response, new session state, new store)`, or `none` when a
Python exception escapes the function. The `if not session_state`
normalisation at line 251-252 is the identity here, because a missing or
empty dict is the all-default record. -/
def process_user_message (fuzzy : List Char → Option DateTime) (now : DateTime)
    (text : String) (s : SessionState) (store : List Event) : TurnResult :=
  let intent := extract_intent fuzzy now text s
  let dt := extract_date_time fuzzy now text
  let date := dt.1
  let time_str := dt.2
  if s.pending_confirmation && (intent == "confirm" || intent == "yes" || intent == "ok")
  then confirm_pending s store
  else if truthyDate s.availability_date && intent == "select_time" then
    select_after_check text s store
  else if intent == "check_availability" then
    check_availability_branch date s store
  else if intent == "greeting" then some (.greetingMsg, emptyState, store)  -- line 336-341
  else if intent == "select_time" then select_time_branch now text s store
  else if intent == "confirm" && s.pending_confirmation && s.pending_booking.isSome then
    confirm_explicit s store
  else if intent == "cancel" && s.pending_confirmation then
    some (.bookingCancelled, emptyState, store)  -- line 437-442
  else if intent == "check" then check_branch date s store
  else if intent == "book" then book_branch text date time_str s store
  else fallback_branch date time_str s store

/-! ## Reachability of session states

`Reach s store` holds when `(s, store)` can arise from a fresh conversation
(empty dict, empty module-global `calendar_events`) through successful
`process_user_message` turns, with an arbitrary text, clock and fuzzy
parser at every turn. -/

inductive Reach : SessionState → List Event → Prop where
  | init : Reach emptyState []
  | next {s store r s' store'} (fuzzy : List Char → Option DateTime)
      (now : DateTime) (text : String) :
      Reach s store →
      process_user_message fuzzy now text s store = some (r, s', store') →
      Reach s' store'

/-- The inductive invariant: a set `pending_confirmation` flag comes with
a pending booking, and every stored slot label has an hour that
`datetime.replace` accepts (the second conjunct is what makes the
partially-mutated except-path at agent.py 405 unreachable). -/
def StateInv (s : SessionState) : Prop :=
  (s.pending_confirmation = true → s.pending_booking.isSome = true) ∧
  ∀ t ∈ s.available_slots.getD [], 0 ≤ t.hour ∧ t.hour ≤ 23

/-! ## Concrete data used by the counterexample runs -/

/-- A fuzzy parser that never resolves a date; the concrete runs below
never consult it (their date branches are decided by keyword matches). -/
def noFuzzy : List Char → Option DateTime := fun _ => none

/-- A Monday, 10:00, as anchor instant. -/
def mondayNow : DateTime := ⟨0, 10, 0⟩

/-- The Tuesday reached by `tomorrow` from `mondayNow`. -/
def tueNow : DateTime := ⟨1, 10, 0⟩

/-- The full 9-slot business-hours grid. -/
def grid9 : List TimeLabel :=
  [⟨9, 0⟩, ⟨10, 0⟩, ⟨11, 0⟩, ⟨12, 0⟩, ⟨13, 0⟩, ⟨14, 0⟩, ⟨15, 0⟩, ⟨16, 0⟩, ⟨17, 0⟩]

/-- The state after `do you have free time tomorrow` on an empty calendar. -/
def checkState : SessionState :=
  { availability_date := some tueNow, available_slots := some grid9 }

/-- The state after the turn `20` from `checkState`: a pending booking for
the hour 20, which is not one of the offered slots. -/
def pend20State : SessionState :=
  { checkState with
      pending_confirmation := true,
      pending_booking := some ⟨⟨1, 20, 0⟩, ⟨20, 0⟩, some 60, some "Meeting"⟩ }

/-- The event committed by `book tomorrow at 13:00` from `mondayNow`. -/
def ev13 : Event := ⟨⟨1, 13, 0⟩, ⟨13, 0⟩, 60, "Meeting"⟩

/-- The free slots of the Tuesday once 13:00 is booked. -/
def slots8 : List TimeLabel :=
  [⟨9, 0⟩, ⟨10, 0⟩, ⟨11, 0⟩, ⟨12, 0⟩, ⟨14, 0⟩, ⟨15, 0⟩, ⟨16, 0⟩, ⟨17, 0⟩]

/-- The state after checking availability for tomorrow with 13:00 already
booked. -/
def checkState8 : SessionState :=
  { availability_date := some tueNow, available_slots := some slots8 }

/-- The state after the turn `13` from `checkState8`: a pending booking
for the already-booked 13:00. -/
def pend13State : SessionState :=
  { checkState8 with
      pending_confirmation := true,
      pending_booking := some ⟨⟨1, 13, 0⟩, ⟨13, 0⟩, some 60, some "Meeting"⟩ }

/-- The state after `13` from `checkState` (a free slot selected). -/
def pend13Free : SessionState :=
  { checkState with
      pending_confirmation := true,
      pending_booking := some ⟨⟨1, 13, 0⟩, ⟨13, 0⟩, some 60, some "Meeting"⟩ }

/-- The state after `book tomorrow at 8am` from an empty conversation:
`waiting_for_time` is set but no `available_slots` list is stored
(agent.py 527-531). -/
def waitingNoSlots : SessionState :=
  { booking_flow := true, selected_date := some tueNow, waiting_for_time := true }

/-- The next Monday reached by `next week` from `mondayNow`. -/
def nextMonNow : DateTime := ⟨7, 10, 0⟩

/-- The state after `book a meeting between 3-5 PM next week` from an
empty conversation on an empty calendar. -/
def c4State : SessionState :=
  { booking_flow := true, waiting_for_time := true,
    selected_date := some nextMonNow, available_slots := some grid9 }

/-! ## Helper lemmas about the availability engine -/

/-- Membership in `get_free_slots`: exactly the business-hours labels not
booked on that calendar day. -/
theorem mem_get_free_slots {store : List Event} {d : DateTime} {t : TimeLabel} :
    t ∈ get_free_slots store d ↔
      ((9 ≤ t.hour ∧ t.hour ≤ 17 ∧ t.minute = 0) ∧
        ¬ ∃ e ∈ store, e.date.day = d.day ∧ e.time = t) := by
  have hgrid : ((List.range' 9 9).map (fun h => (⟨(h : Int), 0⟩ : TimeLabel))) = grid9 := by
    rfl
  unfold get_free_slots
  rw [hgrid]
  simp only [List.mem_filter, List.elem_eq_mem, Bool.not_eq_eq_eq_not, Bool.not_true,
    decide_eq_false_iff_not, List.mem_map, List.mem_filter, beq_iff_eq]
  obtain ⟨th, tm⟩ := t
  constructor
  · rintro ⟨hmem, hnb⟩
    refine ⟨?_, ?_⟩
    · simp only [grid9, List.mem_cons, List.not_mem_nil, or_false,
        TimeLabel.mk.injEq] at hmem
      simp only
      omega
    · rintro ⟨e, he, hd, ht⟩
      exact hnb ⟨e, ⟨he, hd⟩, ht⟩
  · rintro ⟨⟨h9, h17, hm⟩, hnb⟩
    refine ⟨?_, ?_⟩
    · simp only at h9 h17 hm
      simp only [grid9, List.mem_cons, List.not_mem_nil, or_false, TimeLabel.mk.injEq]
      omega
    · rintro ⟨e, ⟨he, hd⟩, ht⟩
      exact hnb ⟨e, he, hd, ht⟩

/-- Every free slot has an hour that `datetime.replace` accepts. -/
theorem get_free_slots_hour_ok {store : List Event} {d : DateTime} {t : TimeLabel}
    (h : t ∈ get_free_slots store d) : 0 ≤ t.hour ∧ t.hour ≤ 23 := by
  obtain ⟨⟨h9, h17, _⟩, _⟩ := mem_get_free_slots.mp h
  omega

/-- The free-slot list is strictly ascending in the hour. -/
theorem pairwise_get_free_slots (store : List Event) (d : DateTime) :
    (get_free_slots store d).Pairwise (fun a b => a.hour < b.hour) := by
  unfold get_free_slots
  refine List.Pairwise.filter _ ?_
  decide

/-- Expresses `get_free_slots` as a filter of the literal grid by the booked-event
predicate stated with an existential, as the spec words it. -/
theorem get_free_slots_eq_filter (store : List Event) (d : DateTime) :
    get_free_slots store d =
      grid9.filter (fun t => decide (¬ ∃ e ∈ store, e.date.day = d.day ∧ e.time = t)) := by
  have hgrid : ((List.range' 9 9).map (fun h => (⟨(h : Int), 0⟩ : TimeLabel))) = grid9 := by
    rfl
  unfold get_free_slots
  rw [hgrid]
  apply List.filter_congr
  intro t _
  rw [decide_not]
  congr 1
  simp only [List.elem_eq_mem]
  rw [decide_eq_decide]
  simp only [List.mem_map, List.mem_filter, beq_iff_eq]
  constructor
  · rintro ⟨e, ⟨he, hd⟩, ht⟩
    exact ⟨e, he, hd, ht⟩
  · rintro ⟨e, he, hd, ht⟩
    exact ⟨e, ⟨he, hd⟩, ht⟩

/-! ## The claims -/

/-- Claim C1 (code_bug): the claim — no exception escapes
`process_user_message`, in particular a 1-2 digit turn while
`availability_date` is set never raises — fails on the code. From the
state reached by a fresh availability check, the turn `25` reaches
`datetime.replace(hour=25)` at agent.py 303, which sits outside the
`try` and raises `ValueError`; the model returns `none` there. -/
theorem c1_hour_25_escapes (fuzzy : List Char → Option DateTime) :
    process_user_message fuzzy mondayNow "do you have free time tomorrow" emptyState [] =
      some (.freeSlotsCheck tueNow grid9, checkState, []) ∧
    process_user_message fuzzy mondayNow "25" checkState [] = none :=
  ⟨rfl, rfl⟩

/-- Claim C2 (code_bug): after booking Tuesday 13:00, the slot is indeed
excluded from `get_free_slots`, but the booking can be repeated: a fresh
availability check stores `availability_date`, the turn `13` is accepted
by the branch at agent.py 285 (which never consults `available_slots`),
and the explicit `yes` appends a second event with the same calendar day
and the same time label. -/
theorem c2_double_booking (fuzzy : List Char → Option DateTime) :
    process_user_message fuzzy mondayNow "book tomorrow at 13:00" emptyState [] =
      some (.bookedDirectA tueNow ⟨13, 0⟩, emptyState, [ev13]) ∧
    (⟨13, 0⟩ : TimeLabel) ∉ get_free_slots [ev13] tueNow ∧
    process_user_message fuzzy mondayNow "do you have free time tomorrow" emptyState
        [ev13] =
      some (.freeSlotsCheck tueNow slots8, checkState8, [ev13]) ∧
    process_user_message fuzzy mondayNow "13" checkState8 [ev13] =
      some (.selectedConfirmA ⟨13, 0⟩ tueNow, pend13State, [ev13]) ∧
    process_user_message fuzzy mondayNow "yes" pend13State [ev13] =
      some (.confirmedPending ⟨1, 13, 0⟩, emptyState, [ev13, ev13]) :=
  ⟨rfl, by decide, rfl, rfl, rfl⟩

/-- Claim C3 (code_bug): with `availability_date` and `available_slots` both
set, a `select_time` turn whose hour is not among the slots is NOT
rejected: the hour 20 is outside the offered grid, yet the branch at
agent.py 285 builds a pending booking for it and changes the state, so
the claimed reject-and-stay-unchanged behaviour (the shadowed branch at
agent.py 362-366) never runs. -/
theorem c3_unavailable_hour_accepted (fuzzy : List Char → Option DateTime) :
    process_user_message fuzzy mondayNow "do you have free time tomorrow" emptyState [] =
      some (.freeSlotsCheck tueNow grid9, checkState, []) ∧
    (⟨20, 0⟩ : TimeLabel) ∉ grid9 ∧
    process_user_message fuzzy mondayNow "20" checkState [] =
      some (.selectedConfirmA ⟨20, 0⟩ tueNow, pend20State, []) ∧
    pend20State ≠ checkState ∧
    pend20State.pending_confirmation = true ∧
    pend20State.pending_booking.isSome = true :=
  ⟨rfl, by decide, rfl, by decide, rfl, rfl⟩

/-- A slot-hour filter over `[3, 17]` keeps every free slot, because the
business-hours grid already lies inside that range. -/
theorem filter_3_17_keeps_all (store : List Event) (d : DateTime) :
    (get_free_slots store d).filter
        (fun slot => (3 : Int) ≤ slot.hour && slot.hour ≤ 17) =
      get_free_slots store d := by
  refine List.filter_eq_self.mpr ?_
  intro t ht
  obtain ⟨⟨h9, h17, _⟩, _⟩ := mem_get_free_slots.mp ht
  simp only [Bool.and_eq_true, decide_eq_true_eq]
  omega

/-- Claim C4 (corrected), counterexample to the claim as stated: from an
empty state on a Monday with an empty calendar, the `between 3-5 PM`
turn presents ALL nine business-hours slots, not just 15:00-17:00,
because `parse_time_to_hour` reads the bare `3` as hour 3 (there is no
PM inference there), so the filter range is [3, 17]. -/
theorem c4_counterexample :
    process_user_message noFuzzy mondayNow "book a meeting between 3-5 PM next week"
        emptyState [] =
      some (.rangeSlots nextMonNow "3".data "5 pm".data grid9, c4State, []) ∧
    parse_time_to_hour "3".data = some 3 ∧
    grid9 ≠ [⟨15, 0⟩, ⟨16, 0⟩, ⟨17, 0⟩] ∧
    nextMonNow.weekday = 0 ∧ c4State.waiting_for_time = true :=
  ⟨rfl, rfl, by decide, rfl, rfl⟩

/-- Claim C4 (corrected), the amended claim: from an empty session state the
turn resolves the date to next Monday and presents the free slots whose
hour lies in [3, 17] — which is every free slot of the business-hours
grid, so with an empty calendar all nine slots 09:00-17:00, not only
15:00-17:00 — and the returned state carries `waiting_for_time` and
exactly that list in `available_slots`. -/
theorem c4_amended (fuzzy : List Char → Option DateTime) (now : DateTime)
    (store : List Event)
    (hfs : get_free_slots store (nextWeekDate now) ≠ []) :
    process_user_message fuzzy now "book a meeting between 3-5 PM next week"
        emptyState store =
      some (.rangeSlots (nextWeekDate now) "3".data "5 pm".data
              (get_free_slots store (nextWeekDate now)),
        { booking_flow := true, waiting_for_time := true,
          selected_date := some (nextWeekDate now),
          available_slots := some (get_free_slots store (nextWeekDate now)) },
        store) ∧
    (nextWeekDate now).weekday = 0 ∧
    now.day < (nextWeekDate now).day ∧ (nextWeekDate now).day ≤ now.day + 7 := by
  have hI : extract_intent fuzzy now "book a meeting between 3-5 PM next week"
      emptyState = "book" := rfl
  have hD : extract_date_time fuzzy now "book a meeting between 3-5 PM next week" =
      (some (nextWeekDate now), some ⟨17, 0⟩) := rfl
  have hB : searchBetween
        (("book a meeting between 3-5 PM next week" : String).data.map Char.toLower) =
      some ("3".data, "5 pm".data) := rfl
  have hP1 : parse_time_to_hour "3".data = some 3 := rfl
  have hP2 : parse_time_to_hour "5 pm".data = some 17 := rfl
  have hb1 : (("book" : String) == "confirm") = false := rfl
  have hb2 : (("book" : String) == "yes") = false := rfl
  have hb3 : (("book" : String) == "ok") = false := rfl
  have hb4 : (("book" : String) == "check_availability") = false := rfl
  have hb5 : (("book" : String) == "greeting") = false := rfl
  have hb6 : (("book" : String) == "select_time") = false := rfl
  have hb7 : (("book" : String) == "confirm") = false := rfl
  have hb8 : (("book" : String) == "cancel") = false := rfl
  have hb9 : (("book" : String) == "check") = false := rfl
  have hb10 : (("book" : String) == "book") = true := rfl
  have hEmp : (!(get_free_slots store (nextWeekDate now)).isEmpty) = true := by
    simp [List.isEmpty_eq_false.mpr hfs]
  have hE1 : emptyState.pending_confirmation = false := rfl
  have hE2 : truthyDate emptyState.availability_date = false := rfl
  refine ⟨?_, ?_, ?_, ?_⟩
  · simp only [process_user_message, book_branch, hI, hD, hB, hP1, hP2, hb1, hb2,
      hb3, hb4, hb5, hb6, hb7, hb8, hb9, hb10, hE1, hE2, Bool.or_self, Bool.or_false,
      Bool.false_or, Bool.and_false, Bool.false_and, Bool.and_true, Bool.true_and,
      Bool.false_eq_true, if_false, if_true, ite_false, ite_true, eq_self_iff_true,
      filter_3_17_keeps_all, hEmp]
    rfl
  all_goals
    by_cases hc : (7 - now.day % 7) % 7 = 0 <;>
      (simp only [nextWeekDate, DateTime.weekday, addDays, beq_iff_eq, hc,
        eq_self_iff_true, iff_false, if_true, if_false, ite_true, ite_false]
       omega)

/-- Witness for C4 (amended) on an empty calendar at the Monday anchor. -/
theorem c4_amended_witness :
    process_user_message noFuzzy mondayNow "book a meeting between 3-5 PM next week"
        emptyState [] =
      some (.rangeSlots (nextWeekDate mondayNow) "3".data "5 pm".data
              (get_free_slots [] (nextWeekDate mondayNow)),
        { booking_flow := true, waiting_for_time := true,
          selected_date := some (nextWeekDate mondayNow),
          available_slots := some (get_free_slots [] (nextWeekDate mondayNow)) },
        []) ∧
    (nextWeekDate mondayNow).weekday = 0 ∧
    mondayNow.day < (nextWeekDate mondayNow).day ∧
    (nextWeekDate mondayNow).day ≤ mondayNow.day + 7 :=
  c4_amended noFuzzy mondayNow [] (by decide)

/-- Claim C5 (confirmed): `get_free_slots` is the ascending business-hours
grid OF 9 labels 09:00-17:00 with a label excluded exactly when the store
holds an event on that calendar day with that label; it is a pure function
of store and date, so two calls with no intervening booking agree. -/
theorem c5_free_slots_grid_spec (store : List Event) (d : DateTime) :
    (∀ t : TimeLabel, t ∈ get_free_slots store d ↔
        ((9 ≤ t.hour ∧ t.hour ≤ 17 ∧ t.minute = 0) ∧
          ¬ ∃ e ∈ store, e.date.day = d.day ∧ e.time = t)) ∧
    (get_free_slots store d).Pairwise (fun a b => a.hour < b.hour) ∧
    get_free_slots store d =
      grid9.filter (fun t => decide (¬ ∃ e ∈ store, e.date.day = d.day ∧ e.time = t)) ∧
    get_free_slots store d = get_free_slots store d :=
  ⟨fun _ => mem_get_free_slots, pairwise_get_free_slots store d,
    get_free_slots_eq_filter store d, rfl⟩

/-- Claim C8 (confirmed): on a Monday anchor, extracting a date from
`this Friday` yields a date whose weekday is Friday, at least the anchor
day and less than seven days after it. -/
theorem c8_this_friday_on_monday (fuzzy : List Char → Option DateTime)
    (now : DateTime) (h : now.weekday = 0) :
    ∃ d, (extract_date_time fuzzy now "this Friday").1 = some d ∧
      d.weekday = 4 ∧ now.day ≤ d.day ∧ d.day < now.day + 7 := by
  have hw : now.day % 7 = 0 := h
  have e : (extract_date_time fuzzy now "this Friday").1 =
      some (addDays now (dayAhead 4 now.weekday)) := rfl
  have ha : dayAhead 4 0 = 4 := rfl
  refine ⟨addDays now (dayAhead 4 now.weekday), e, ?_, ?_, ?_⟩ <;>
    simp only [DateTime.weekday, addDays, hw, ha] <;> omega

/-- Witness for C8 at the concrete Monday `day = 14`. -/
theorem c8_this_friday_on_monday_witness :
    ∃ d, (extract_date_time noFuzzy ⟨14, 10, 0⟩ "this Friday").1 = some d ∧
      d.weekday = 4 ∧ 14 ≤ d.day ∧ d.day < 14 + 7 :=
  c8_this_friday_on_monday noFuzzy ⟨14, 10, 0⟩ (by decide)

/-- Claim C10 (confirmed): if `waiting_for_time` is set but neither
`availability_date` nor `available_slots` is present, a turn that is
exactly a 1-2 digit number is classified `select_time` and falls through
to the generic help menu at agent.py 411-415, returning an EMPTY session
state that silently discards `booking_flow`, `selected_date` and
`waiting_for_time`. -/
theorem c10_digit_resets_waiting_state (fuzzy : List Char → Option DateTime)
    (now : DateTime) (text : String) (s : SessionState) (store : List Event)
    (hdig : isDigits12 (lowerStrip text) = true)
    (hwt : s.waiting_for_time = true)
    (had : s.availability_date = none)
    (has : s.available_slots = none) :
    process_user_message fuzzy now text s store = some (.helpMenuA, emptyState, store) := by
  have hintent : extract_intent fuzzy now text s = "select_time" := by
    unfold extract_intent
    simp only [hwt, hdig, Bool.and_self, if_pos]
  have hb1 : (("select_time" : String) == "confirm") = false := rfl
  have hb2 : (("select_time" : String) == "yes") = false := rfl
  have hb3 : (("select_time" : String) == "ok") = false := rfl
  have hb4 : (("select_time" : String) == "check_availability") = false := rfl
  have hb5 : (("select_time" : String) == "greeting") = false := rfl
  have hb6 : (("select_time" : String) == "select_time") = true := rfl
  simp only [process_user_message, select_time_branch, select_time_fallback, hintent,
    hb1, hb2, hb3, hb4, hb5, hb6, had, has, truthyDate, truthySlots,
    Option.isSome_none, Bool.or_self, Bool.or_false, Bool.false_or, Bool.and_false,
    Bool.false_and, Bool.and_true, Bool.true_and, Bool.false_eq_true, if_false,
    if_true, hwt, Bool.and_self, ite_false, ite_true]

/-- Any property of both branches holds of an if-expression; used to walk
the intent classifier without evaluating its conditions. -/
theorem prop_ite {α : Type} {c : Prop} [Decidable c] {a b : α} (P : α → Prop)
    (ha : P a) (hb : P b) : P (if c then a else b) := by
  split
  · exact ha
  · exact hb

/-- Claim C9 (confirmed): `extract_intent` only ever returns one of the
eight intent strings and never `"check_availability"`, so the controller
branch at agent.py 313 is unreachable; and a `check` turn with an
extracted date whose free-slot list is non-empty takes the branch at
agent.py 445-460, which stores BOTH `availability_date` and
`available_slots`. -/
theorem c9_intent_codomain_and_check_branch :
    (∀ (fuzzy : List Char → Option DateTime) (now : DateTime) (text : String)
        (s : SessionState),
      extract_intent fuzzy now text s ∈
        (["book", "check", "cancel", "confirm", "reject", "greeting", "select_time",
          "unknown"] : List String) ∧
      extract_intent fuzzy now text s ≠ "check_availability") ∧
    (∀ (fuzzy : List Char → Option DateTime) (now : DateTime) (text : String)
        (s : SessionState) (store : List Event) (d : DateTime),
      extract_intent fuzzy now text s = "check" →
      (extract_date_time fuzzy now text).1 = some d →
      get_free_slots store d ≠ [] →
      process_user_message fuzzy now text s store =
        some (.freeSlotsCheck d (get_free_slots store d),
          { emptyState with
              availability_date := some d,
              available_slots := some (get_free_slots store d) },
          store)) := by
  constructor
  · intro fuzzy now text s
    have hmem : extract_intent fuzzy now text s ∈
        (["book", "check", "cancel", "confirm", "reject", "greeting", "select_time",
          "unknown"] : List String) := by
      simp only [extract_intent]
      repeat' first
        | refine prop_ite _ ?_ ?_
        | decide
    exact ⟨hmem, ne_of_mem_of_not_mem hmem (by decide)⟩
  · intro fuzzy now text s store d hI hD hFS
    have hb1 : (("check" : String) == "confirm") = false := rfl
    have hb2 : (("check" : String) == "yes") = false := rfl
    have hb3 : (("check" : String) == "ok") = false := rfl
    have hb4 : (("check" : String) == "check_availability") = false := rfl
    have hb5 : (("check" : String) == "greeting") = false := rfl
    have hb6 : (("check" : String) == "select_time") = false := rfl
    have hb7 : (("check" : String) == "cancel") = false := rfl
    have hb8 : (("check" : String) == "check") = true := rfl
    have hEmp : (!(get_free_slots store d).isEmpty) = true := by
      simp [List.isEmpty_eq_false.mpr hFS]
    simp only [process_user_message, check_branch, hI, hD, hb1, hb2, hb3, hb4, hb5,
      hb6, hb7, hb8, Bool.or_self, Bool.or_false, Bool.false_or, Bool.and_false,
      Bool.false_and, Bool.and_true, Bool.true_and, Bool.false_eq_true, if_false,
      if_true, ite_false, ite_true, eq_self_iff_true, hEmp]

/-- Witness for C9 at a concrete availability-check turn. -/
theorem c9_intent_codomain_and_check_branch_witness :
    extract_intent noFuzzy mondayNow "do you have free time tomorrow" emptyState ∈
      (["book", "check", "cancel", "confirm", "reject", "greeting", "select_time",
        "unknown"] : List String) ∧
    process_user_message noFuzzy mondayNow "do you have free time tomorrow"
        emptyState [] =
      some (.freeSlotsCheck tueNow (get_free_slots [] tueNow),
        { emptyState with
            availability_date := some tueNow,
            available_slots := some (get_free_slots [] tueNow) },
        []) :=
  ⟨(c9_intent_codomain_and_check_branch.1 noFuzzy mondayNow
      "do you have free time tomorrow" emptyState).1,
    c9_intent_codomain_and_check_branch.2 noFuzzy mondayNow
      "do you have free time tomorrow" emptyState [] tueNow rfl rfl (by decide)⟩

/-! ## Frame property of the calendar store (one lemma per branch helper) -/

/-- The store after `confirm_pending` is the old store with at most one
event appended. -/
theorem store_frame_confirm_pending {s : SessionState} {store : List Event}
    {r : Response} {s' : SessionState} {store' : List Event}
    (h : confirm_pending s store = some (r, s', store')) :
    store' = store ∨ ∃ e, store' = store ++ [e] := by
  simp only [confirm_pending] at h
  repeat' split at h
  all_goals
    first
    | exact Option.noConfusion h
    | (simp only [Option.some.injEq, Prod.mk.injEq] at h
       obtain ⟨-, -, rfl⟩ := h
       first
       | exact Or.inl rfl
       | exact Or.inr ⟨_, rfl⟩)

/-- The store after `select_after_check` is unchanged. -/
theorem store_frame_select_after_check {text : String} {s : SessionState}
    {store : List Event} {r : Response} {s' : SessionState} {store' : List Event}
    (h : select_after_check text s store = some (r, s', store')) :
    store' = store ∨ ∃ e, store' = store ++ [e] := by
  simp only [select_after_check] at h
  repeat' split at h
  all_goals
    first
    | exact Option.noConfusion h
    | (simp only [Option.some.injEq, Prod.mk.injEq] at h
       obtain ⟨-, -, rfl⟩ := h
       first
       | exact Or.inl rfl
       | exact Or.inr ⟨_, rfl⟩)

/-- The store after the (unreachable) `check_availability` branch is
unchanged. -/
theorem store_frame_check_availability {date : Option DateTime} {s : SessionState}
    {store : List Event} {r : Response} {s' : SessionState} {store' : List Event}
    (h : check_availability_branch date s store = some (r, s', store')) :
    store' = store ∨ ∃ e, store' = store ++ [e] := by
  simp only [check_availability_branch] at h
  repeat' split at h
  all_goals
    first
    | exact Option.noConfusion h
    | (simp only [Option.some.injEq, Prod.mk.injEq] at h
       obtain ⟨-, -, rfl⟩ := h
       first
       | exact Or.inl rfl
       | exact Or.inr ⟨_, rfl⟩)

/-- The store after `select_time_fallback` is unchanged. -/
theorem store_frame_select_time_fallback {now : DateTime} {text : String}
    {s : SessionState} {store : List Event} {r : Response} {s' : SessionState}
    {store' : List Event}
    (h : select_time_fallback now text s store = some (r, s', store')) :
    store' = store ∨ ∃ e, store' = store ++ [e] := by
  simp only [select_time_fallback] at h
  repeat' split at h
  all_goals
    first
    | exact Option.noConfusion h
    | (simp only [Option.some.injEq, Prod.mk.injEq] at h
       obtain ⟨-, -, rfl⟩ := h
       first
       | exact Or.inl rfl
       | exact Or.inr ⟨_, rfl⟩)

/-- The store after `select_time_branch` is unchanged. -/
theorem store_frame_select_time_branch {now : DateTime} {text : String}
    {s : SessionState} {store : List Event} {r : Response} {s' : SessionState}
    {store' : List Event}
    (h : select_time_branch now text s store = some (r, s', store')) :
    store' = store ∨ ∃ e, store' = store ++ [e] := by
  simp only [select_time_branch] at h
  repeat' split at h
  all_goals
    first
    | exact Option.noConfusion h
    | exact store_frame_select_time_fallback h
    | (simp only [Option.some.injEq, Prod.mk.injEq] at h
       obtain ⟨-, -, rfl⟩ := h
       first
       | exact Or.inl rfl
       | exact Or.inr ⟨_, rfl⟩)

/-- The store after `confirm_explicit` gains exactly one event. -/
theorem store_frame_confirm_explicit {s : SessionState} {store : List Event}
    {r : Response} {s' : SessionState} {store' : List Event}
    (h : confirm_explicit s store = some (r, s', store')) :
    store' = store ∨ ∃ e, store' = store ++ [e] := by
  simp only [confirm_explicit, Option.some.injEq, Prod.mk.injEq] at h
  obtain ⟨-, -, rfl⟩ := h
  exact Or.inr ⟨_, rfl⟩

/-- The store after `check_branch` is unchanged. -/
theorem store_frame_check_branch {date : Option DateTime} {s : SessionState}
    {store : List Event} {r : Response} {s' : SessionState} {store' : List Event}
    (h : check_branch date s store = some (r, s', store')) :
    store' = store ∨ ∃ e, store' = store ++ [e] := by
  simp only [check_branch] at h
  repeat' split at h
  all_goals
    first
    | exact Option.noConfusion h
    | (simp only [Option.some.injEq, Prod.mk.injEq] at h
       obtain ⟨-, -, rfl⟩ := h
       first
       | exact Or.inl rfl
       | exact Or.inr ⟨_, rfl⟩)

/-- The store after `book_time_flow` is the old store with at most one
event appended. -/
theorem store_frame_book_time_flow {d : DateTime} {free_slots : List TimeLabel}
    {s2 : SessionState} {time_str : Option TimeLabel} {store : List Event}
    {r : Response} {s' : SessionState} {store' : List Event}
    (h : book_time_flow d free_slots s2 time_str store = some (r, s', store')) :
    store' = store ∨ ∃ e, store' = store ++ [e] := by
  simp only [book_time_flow] at h
  repeat' split at h
  all_goals
    first
    | exact Option.noConfusion h
    | (simp only [Option.some.injEq, Prod.mk.injEq] at h
       obtain ⟨-, -, rfl⟩ := h
       first
       | exact Or.inl rfl
       | exact Or.inr ⟨_, rfl⟩)

/-- The store after `book_branch` is the old store with at most one event
appended. -/
theorem store_frame_book_branch {text : String} {date : Option DateTime}
    {time_str : Option TimeLabel} {s : SessionState} {store : List Event}
    {r : Response} {s' : SessionState} {store' : List Event}
    (h : book_branch text date time_str s store = some (r, s', store')) :
    store' = store ∨ ∃ e, store' = store ++ [e] := by
  simp only [book_branch] at h
  repeat' split at h
  all_goals
    first
    | exact Option.noConfusion h
    | exact store_frame_book_time_flow h
    | (simp only [Option.some.injEq, Prod.mk.injEq] at h
       obtain ⟨-, -, rfl⟩ := h
       first
       | exact Or.inl rfl
       | exact Or.inr ⟨_, rfl⟩)

/-- The store after `fallback_book_flow` is the old store with at most one
event appended. -/
theorem store_frame_fallback_book_flow {d : DateTime} {free_slots : List TimeLabel}
    {s2 : SessionState} {time_str : Option TimeLabel} {store : List Event}
    {r : Response} {s' : SessionState} {store' : List Event}
    (h : fallback_book_flow d free_slots s2 time_str store = some (r, s', store')) :
    store' = store ∨ ∃ e, store' = store ++ [e] := by
  simp only [fallback_book_flow] at h
  repeat' split at h
  all_goals
    first
    | exact Option.noConfusion h
    | (simp only [Option.some.injEq, Prod.mk.injEq] at h
       obtain ⟨-, -, rfl⟩ := h
       first
       | exact Or.inl rfl
       | exact Or.inr ⟨_, rfl⟩)

/-- The store after `fallback_branch` is the old store with at most one
event appended. -/
theorem store_frame_fallback_branch {date : Option DateTime}
    {time_str : Option TimeLabel} {s : SessionState} {store : List Event}
    {r : Response} {s' : SessionState} {store' : List Event}
    (h : fallback_branch date time_str s store = some (r, s', store')) :
    store' = store ∨ ∃ e, store' = store ++ [e] := by
  simp only [fallback_branch] at h
  repeat' split at h
  all_goals
    first
    | exact Option.noConfusion h
    | exact store_frame_fallback_book_flow h
    | (simp only [Option.some.injEq, Prod.mk.injEq] at h
       obtain ⟨-, -, rfl⟩ := h
       first
       | exact Or.inl rfl
       | exact Or.inr ⟨_, rfl⟩)

/-- Claim C7 (confirmed): the calendar store is append-only — every
successful turn returns the old store either unchanged or with exactly one
event appended at the end; no existing event is removed or modified. -/
theorem c7_store_append_only (fuzzy : List Char → Option DateTime) (now : DateTime)
    (text : String) (s : SessionState) (store : List Event) {r : Response}
    {s' : SessionState} {store' : List Event}
    (h : process_user_message fuzzy now text s store = some (r, s', store')) :
    store' = store ∨ ∃ e, store' = store ++ [e] := by
  simp only [process_user_message] at h
  repeat' split at h
  all_goals
    first
    | exact store_frame_confirm_pending h
    | exact store_frame_select_after_check h
    | exact store_frame_check_availability h
    | exact store_frame_select_time_branch h
    | exact store_frame_confirm_explicit h
    | exact store_frame_check_branch h
    | exact store_frame_book_branch h
    | exact store_frame_fallback_branch h
    | (simp only [Option.some.injEq, Prod.mk.injEq] at h
       obtain ⟨-, -, rfl⟩ := h
       exact Or.inl rfl)

/-- Witness for C7 at a concrete greeting turn (store unchanged). -/
theorem c7_store_append_only_witness :
    ([] : List Event) = [] ∨ ∃ e, ([] : List Event) = [] ++ [e] :=
  c7_store_append_only noFuzzy mondayNow "hi" emptyState [] rfl

/-! ## The pending-confirmation invariant (for C6) -/

/-- The empty dict satisfies the invariant. -/
theorem stateInv_empty : StateInv emptyState := by
  constructor
  · intro hx
    exact Bool.noConfusion hx
  · intro t ht
    exact absurd ht (by simp [emptyState])

/-- The branch `confirm_pending` preserves the invariant. -/
theorem inv_confirm_pending {s : SessionState} {store : List Event} {r : Response}
    {s' : SessionState} {store' : List Event} (hs : StateInv s)
    (h : confirm_pending s store = some (r, s', store')) : StateInv s' := by
  simp only [confirm_pending] at h
  repeat' split at h
  all_goals
    simp only [Option.some.injEq, Prod.mk.injEq] at h
  all_goals
    (obtain ⟨-, rfl, -⟩ := h; exact stateInv_empty)

/-- The branch `select_after_check` preserves the invariant. -/
theorem inv_select_after_check {text : String} {s : SessionState} {store : List Event}
    {r : Response} {s' : SessionState} {store' : List Event} (hs : StateInv s)
    (h : select_after_check text s store = some (r, s', store')) : StateInv s' := by
  obtain ⟨hpc, hsl⟩ := hs
  simp only [select_after_check] at h
  repeat' split at h
  all_goals
    first
    | exact Option.noConfusion h
    | (simp only [Option.some.injEq, Prod.mk.injEq] at h
       obtain ⟨-, rfl, -⟩ := h
       first
       | exact stateInv_empty
       | exact ⟨fun _ => rfl, hsl⟩)

/-- The `check_availability` branch preserves the invariant. -/
theorem inv_check_availability {date : Option DateTime} {s : SessionState}
    {store : List Event} {r : Response} {s' : SessionState} {store' : List Event}
    (hs : StateInv s)
    (h : check_availability_branch date s store = some (r, s', store')) :
    StateInv s' := by
  obtain ⟨hpc, hsl⟩ := hs
  simp only [check_availability_branch] at h
  repeat' split at h
  all_goals
    simp only [Option.some.injEq, Prod.mk.injEq] at h
  all_goals
    obtain ⟨-, rfl, -⟩ := h
  · exact ⟨fun hx => Bool.noConfusion hx, fun t ht => absurd ht (by simp [emptyState])⟩
  · exact stateInv_empty
  · exact ⟨hpc, hsl⟩

/-- The branch `select_time_fallback` preserves the invariant: the except-path that
would leave `pending_confirmation` set without a booking requires a slot
hour that `replace` rejects, which the invariant rules out. -/
theorem inv_select_time_fallback {now : DateTime} {text : String} {s : SessionState}
    {store : List Event} {r : Response} {s' : SessionState} {store' : List Event}
    (hs : StateInv s)
    (h : select_time_fallback now text s store = some (r, s', store')) :
    StateInv s' := by
  obtain ⟨hpc, hsl⟩ := hs
  by_cases hw : (s.waiting_for_time && truthySlots s.available_slots) = true
  · rcases hip : intParse text with _ | hour
    · simp only [select_time_fallback, hw, if_true, hip, Option.some.injEq,
        Prod.mk.injEq] at h
      obtain ⟨-, rfl, -⟩ := h
      exact ⟨hpc, hsl⟩
    · by_cases hcont : ((s.available_slots.getD []).contains ⟨hour, 0⟩) = true
      · have hmem : (⟨hour, 0⟩ : TimeLabel) ∈ s.available_slots.getD [] := by
          simpa [List.elem_eq_mem] using hcont
        have hb := hsl _ hmem
        simp only [select_time_fallback, hw, if_true, hip, hcont, eq_self_iff_true,
          ite_true] at h
        split at h
        · rename_i hrep
          exfalso
          unfold replaceHM at hrep
          rw [if_pos hb] at hrep
          exact Option.noConfusion hrep
        · simp only [Option.some.injEq, Prod.mk.injEq] at h
          obtain ⟨-, rfl, -⟩ := h
          exact ⟨fun _ => rfl, hsl⟩
      · simp only [select_time_fallback, hw, if_true, hip, hcont, if_false,
          Bool.false_eq_true, ite_false, Option.some.injEq, Prod.mk.injEq] at h
        obtain ⟨-, rfl, -⟩ := h
        exact ⟨hpc, hsl⟩
  · simp only [select_time_fallback, hw, if_false, Option.some.injEq,
      Prod.mk.injEq] at h
    obtain ⟨-, rfl, -⟩ := h
    exact stateInv_empty

/-- The branch `select_time_branch` preserves the invariant. -/
theorem inv_select_time_branch {now : DateTime} {text : String} {s : SessionState}
    {store : List Event} {r : Response} {s' : SessionState} {store' : List Event}
    (hs : StateInv s)
    (h : select_time_branch now text s store = some (r, s', store')) :
    StateInv s' := by
  obtain ⟨hpc, hsl⟩ := hs
  simp only [select_time_branch] at h
  repeat' split at h
  all_goals
    first
    | exact Option.noConfusion h
    | exact inv_select_time_fallback ⟨hpc, hsl⟩ h
    | (simp only [Option.some.injEq, Prod.mk.injEq] at h
       obtain ⟨-, rfl, -⟩ := h
       first
       | exact ⟨hpc, hsl⟩
       | exact ⟨fun _ => rfl, hsl⟩)

/-- The branch `confirm_explicit` preserves the invariant. -/
theorem inv_confirm_explicit {s : SessionState} {store : List Event} {r : Response}
    {s' : SessionState} {store' : List Event} (hs : StateInv s)
    (h : confirm_explicit s store = some (r, s', store')) : StateInv s' := by
  simp only [confirm_explicit, Option.some.injEq, Prod.mk.injEq] at h
  obtain ⟨-, rfl, -⟩ := h
  exact stateInv_empty

/-- The branch `check_branch` preserves the invariant. -/
theorem inv_check_branch {date : Option DateTime} {s : SessionState}
    {store : List Event} {r : Response} {s' : SessionState} {store' : List Event}
    (hs : StateInv s)
    (h : check_branch date s store = some (r, s', store')) : StateInv s' := by
  obtain ⟨hpc, hsl⟩ := hs
  simp only [check_branch] at h
  repeat' split at h
  all_goals
    simp only [Option.some.injEq, Prod.mk.injEq] at h
  all_goals
    obtain ⟨-, rfl, -⟩ := h
  · exact ⟨hpc, hsl⟩
  · refine ⟨fun hx => Bool.noConfusion hx, fun t ht => ?_⟩
    exact get_free_slots_hour_ok (by simpa using ht)
  · exact stateInv_empty

/-- The branch `book_time_flow` preserves the invariant, given bounded free slots. -/
theorem inv_book_time_flow {d : DateTime} {free_slots : List TimeLabel}
    {s2 : SessionState} {time_str : Option TimeLabel} {store : List Event}
    {r : Response} {s' : SessionState} {store' : List Event} (hs : StateInv s2)
    (hfs : ∀ t ∈ free_slots, 0 ≤ t.hour ∧ t.hour ≤ 23)
    (h : book_time_flow d free_slots s2 time_str store = some (r, s', store')) :
    StateInv s' := by
  obtain ⟨hpc, hsl⟩ := hs
  simp only [book_time_flow] at h
  repeat' split at h
  all_goals
    first
    | exact Option.noConfusion h
    | (simp only [Option.some.injEq, Prod.mk.injEq] at h
       obtain ⟨-, rfl, -⟩ := h
       first
       | exact stateInv_empty
       | exact ⟨hpc, hsl⟩
       | (refine ⟨hpc, fun t ht => ?_⟩
          rw [Option.getD_some] at ht
          exact hfs t ht))

/-- The branch `book_branch` preserves the invariant. -/
theorem inv_book_branch {text : String} {date : Option DateTime}
    {time_str : Option TimeLabel} {s : SessionState} {store : List Event}
    {r : Response} {s' : SessionState} {store' : List Event} (hs : StateInv s)
    (h : book_branch text date time_str s store = some (r, s', store')) :
    StateInv s' := by
  obtain ⟨hpc, hsl⟩ := hs
  simp only [book_branch] at h
  repeat' split at h
  all_goals
    first
    | exact Option.noConfusion h
    | (refine inv_book_time_flow ?_ (fun t ht => get_free_slots_hour_ok ht) h
       exact ⟨hpc, hsl⟩)
    | (simp only [Option.some.injEq, Prod.mk.injEq] at h
       obtain ⟨-, rfl, -⟩ := h
       first
       | exact ⟨hpc, hsl⟩
       | (refine ⟨hpc, fun t ht => ?_⟩
          rw [Option.getD_some] at ht
          exact get_free_slots_hour_ok (List.mem_filter.mp ht).1))

/-- The branch `fallback_book_flow` preserves the invariant, given bounded free
slots. -/
theorem inv_fallback_book_flow {d : DateTime} {free_slots : List TimeLabel}
    {s2 : SessionState} {time_str : Option TimeLabel} {store : List Event}
    {r : Response} {s' : SessionState} {store' : List Event} (hs : StateInv s2)
    (hfs : ∀ t ∈ free_slots, 0 ≤ t.hour ∧ t.hour ≤ 23)
    (h : fallback_book_flow d free_slots s2 time_str store = some (r, s', store')) :
    StateInv s' := by
  obtain ⟨hpc, hsl⟩ := hs
  simp only [fallback_book_flow] at h
  repeat' split at h
  all_goals
    first
    | exact Option.noConfusion h
    | (simp only [Option.some.injEq, Prod.mk.injEq] at h
       obtain ⟨-, rfl, -⟩ := h
       first
       | exact stateInv_empty
       | exact ⟨hpc, hsl⟩
       | (refine ⟨hpc, fun t ht => ?_⟩
          rw [Option.getD_some] at ht
          exact hfs t ht))

/-- The branch `fallback_branch` preserves the invariant. -/
theorem inv_fallback_branch {date : Option DateTime} {time_str : Option TimeLabel}
    {s : SessionState} {store : List Event} {r : Response} {s' : SessionState}
    {store' : List Event} (hs : StateInv s)
    (h : fallback_branch date time_str s store = some (r, s', store')) :
    StateInv s' := by
  obtain ⟨hpc, hsl⟩ := hs
  simp only [fallback_branch] at h
  repeat' split at h
  all_goals
    first
    | exact Option.noConfusion h
    | (refine inv_fallback_book_flow ?_ (fun t ht => get_free_slots_hour_ok ht) h
       exact ⟨hpc, hsl⟩)
    | (simp only [Option.some.injEq, Prod.mk.injEq] at h
       obtain ⟨-, rfl, -⟩ := h
       first
       | exact stateInv_empty
       | exact ⟨hpc, hsl⟩
       | exact ⟨fun _ => rfl, hsl⟩)

/-- One successful turn preserves the invariant. -/
theorem inv_process_user_message {fuzzy : List Char → Option DateTime}
    {now : DateTime} {text : String} {s : SessionState} {store : List Event}
    {r : Response} {s' : SessionState} {store' : List Event} (hs : StateInv s)
    (h : process_user_message fuzzy now text s store = some (r, s', store')) :
    StateInv s' := by
  simp only [process_user_message] at h
  repeat' split at h
  all_goals
    first
    | exact inv_confirm_pending hs h
    | exact inv_select_after_check hs h
    | exact inv_check_availability hs h
    | exact inv_select_time_branch hs h
    | exact inv_confirm_explicit hs h
    | exact inv_check_branch hs h
    | exact inv_book_branch hs h
    | exact inv_fallback_branch hs h
    | (simp only [Option.some.injEq, Prod.mk.injEq] at h
       obtain ⟨-, rfl, -⟩ := h
       first
       | exact stateInv_empty
       | exact hs)

/-- Every reachable state satisfies the invariant. -/
theorem reach_stateInv {s : SessionState} {store : List Event} (h : Reach s store) :
    StateInv s := by
  induction h with
  | init => exact stateInv_empty
  | next fuzzy now text _ hstep ih => exact inv_process_user_message ih hstep

/-- Claim C6 (confirmed): in every session state reachable from an empty
conversation through successful turns, a set `pending_confirmation` flag
comes with a present `pending_booking`; the two are only discarded
together by the full state resets. -/
theorem c6_pending_confirmation_has_booking (s : SessionState) (store : List Event)
    (h : Reach s store) (hpc : s.pending_confirmation = true) :
    s.pending_booking.isSome = true :=
  (reach_stateInv h).1 hpc

/-- Witness for C6: the reachable pending state after an availability
check followed by the turn `13`. -/
theorem c6_pending_confirmation_has_booking_witness :
    pend13Free.pending_confirmation = true ∧
    pend13Free.pending_booking.isSome = true :=
  ⟨rfl,
    c6_pending_confirmation_has_booking pend13Free []
      (Reach.next noFuzzy mondayNow "13"
        (Reach.next noFuzzy mondayNow "do you have free time tomorrow" Reach.init rfl)
        rfl)
      rfl⟩

/-- Witness for C10: the state produced by `book tomorrow at 8am` (time not
free, so `waiting_for_time` is set without slots), followed by `15`. -/
theorem c10_digit_resets_waiting_state_witness :
    process_user_message noFuzzy mondayNow "15" waitingNoSlots [] =
      some (.helpMenuA, emptyState, []) :=
  c10_digit_resets_waiting_state noFuzzy mondayNow "15" waitingNoSlots []
    (by decide) rfl rfl rfl

end CalendarAgent
